import Mathlib

/-!
Verification of the Bismuth node API command handler
(`libs/apihandler.py`, class `ApiHandler`) against its specification.

The Python module is shallowly embedded: each handler becomes a Lean
function over an explicit model of its collaborators (the ledger store,
the transaction table, the peer registry).  Machine behaviour that the
claims depend on — SQL aggregate NULL handling, Python falsiness, SQL
`LIKE` matching, Python dict insertion/deletion order — is modelled
explicitly.  Exceptions are modelled with `Except`; handlers that issue
SQL queries run in a small state monad that records every SQL text
handed to the storage collaborator, so "never reaches storage" is the
statement that the recorded query list is empty.
-/

/-- A ledger transaction row, the logical record of spec §3:
`block_height, timestamp, sender address, recipient, amount, signature,
pubkey, block_hash, fee, reward, operation, openfield`.  Amounts are
exact rationals: this covers both the legacy (decimal string) and v2
(integer number of 1e-8 units) storage encodings. -/
structure Tx where
  block_height : Int
  timestamp : ℚ
  address : String
  recipient : String
  amount : ℚ
  signature : String
  pubkey : String
  block_hash : String
  fee : ℚ
  reward : ℚ
  operation : String
  openfield : String
  deriving DecidableEq

/-- The ledger storage collaborator (`DbHandler`), as the handlers see it:
the `transactions` table, the `misc` table (per-height difficulty rows)
and the result of the `block_height_max()` query.  `max_height` is kept
as its own field because the handlers obtain it through a separate
collaborator call, not by scanning `txs`. -/
structure DbHandler where
  txs : List Tx
  diffs : List (Int × ℚ)
  max_height : Int

/-- Outcome of `ApiHandler.dispatch`: either the invoked handler's own
return value, or the literal `False` the Python code returns on any
failure (unknown method or handler exception). -/
inductive DispatchResult (V : Type) where
  | ok (v : V)
  | failed
  deriving DecidableEq

/-- `ApiHandler.dispatch` (apihandler.py lines 47-68).  The command
registry models `getattr(self, method)`: `none` is an absent attribute,
in which case Python raises `AttributeError` inside the `try` block.  A
handler is a function from the per-call context (socket handler, db
handler, peers) to `Except`: `.error` is the handler raising.  The whole
body sits in one `try/except Exception`, which logs
`"Exception calling method {method}: {e}"` and returns `False`; the
separate `call is None` branch is unreachable for absent attributes
(bare `getattr` raises instead of returning `None`) and is subsumed by
the exception path.  Result: the dispatch outcome plus the list of
warnings logged during the call. -/
def dispatch {C V : Type} (registry : String → Option (C → Except String V))
    (method : String) (ctx : C) : DispatchResult V × List String :=
  let body : Except String V :=
    match registry method with
    | none =>
        Except.error ("'ApiHandler' object has no attribute '" ++ method ++ "'")
    | some call => call ctx
  match body with
  | Except.ok v => (DispatchResult.ok v, [])
  | Except.error e =>
      (DispatchResult.failed, ["Exception calling method " ++ method ++ ": " ++ e])

/-- C1: dispatch never raises to its caller (it is a total function into
`DispatchResult × log`): an unregistered name yields the falsy `failed`
result with one logged warning naming the method; a handler that raises
`e` yields `failed` with one warning containing the handler name and the
error text; and because dispatch holds no cross-call state, a subsequent
dispatch of a registered, succeeding command on the same registry
returns that handler's result unchanged. -/
theorem dispatch_failure_containment {C V : Type}
    (registry : String → Option (C → Except String V)) (method : String) (ctx : C) :
    (registry method = none →
      dispatch registry method ctx =
        (DispatchResult.failed,
         ["Exception calling method " ++ method ++ ": " ++
          ("'ApiHandler' object has no attribute '" ++ method ++ "'")])) ∧
    (∀ call e, registry method = some call → call ctx = Except.error e →
      dispatch registry method ctx =
        (DispatchResult.failed, ["Exception calling method " ++ method ++ ": " ++ e])) ∧
    (∀ call v, registry method = some call → call ctx = Except.ok v →
      dispatch registry method ctx = (DispatchResult.ok v, [])) := by
  refine ⟨fun h => ?_, fun call e hc he => ?_, fun call v hc hv => ?_⟩
  · simp [dispatch, h]
  · simp [dispatch, hc, he]
  · simp [dispatch, hc, hv]

/-- Concrete instance of C1: a two-command registry where `api_bad` is
absent and `api_ping` raises on one context and succeeds on another;
dispatch fails cleanly on the first two and still serves the third. -/
theorem dispatch_failure_containment_witness :
    (@dispatch Bool String
        (fun m => if m = "api_ping" then
            some (fun ctx => if ctx then Except.ok "api_pong" else Except.error "boom")
          else none) "api_bad" true =
      (DispatchResult.failed,
       ["Exception calling method api_bad: 'ApiHandler' object has no attribute 'api_bad'"])) ∧
    (@dispatch Bool String
        (fun m => if m = "api_ping" then
            some (fun ctx => if ctx then Except.ok "api_pong" else Except.error "boom")
          else none) "api_ping" false =
      (DispatchResult.failed, ["Exception calling method api_ping: boom"])) ∧
    (@dispatch Bool String
        (fun m => if m = "api_ping" then
            some (fun ctx => if ctx then Except.ok "api_pong" else Except.error "boom")
          else none) "api_ping" true =
      (DispatchResult.ok "api_pong", [])) := by
  refine ⟨?_, ?_, ?_⟩
  · exact (dispatch_failure_containment _ "api_bad" true).1 (by simp)
  · exact (dispatch_failure_containment _ "api_ping" false).2.1
      (fun ctx => if ctx then Except.ok "api_pong" else Except.error "boom") "boom"
      (by simp) rfl
  · exact (dispatch_failure_containment _ "api_ping" true).2.2
      (fun ctx => if ctx then Except.ok "api_pong" else Except.error "boom") "api_pong"
      (by simp) rfl

/-- SQL `SUM(col)` over a filtered row set: `NULL` (here `none`) when no
row matches, otherwise the sum. -/
def sql_sum (l : List ℚ) : Option ℚ :=
  if l.isEmpty then none else some l.sum

/-- `credit = fetchone()[0]; if not credit: credit = 0` — Python falsiness
collapses both SQL `NULL` and `0` to `0`. -/
def py_or_zero : Option ℚ → ℚ
  | none => 0
  | some v => if v = 0 then 0 else v

/-- `ApiHandler._get_balance` (lines 517-549): balance of one address up
to `block_height_max() - minconf`, as
`SUM(amount)+SUM(reward)` over rows with `recipient = address` minus
`SUM(amount)+SUM(fee)` over rows with `address = address` (sender).
SQL adds the two aggregates, so the pair is `NULL` iff no row matches. -/
def _get_balance (db : DbHandler) (address : String) (minconf : Int) : ℚ :=
  let max_block_height := db.max_height - minconf
  let credit_rows := db.txs.filter
    (fun t => decide (t.recipient = address) && decide (t.block_height ≤ max_block_height))
  let credit := py_or_zero
    (match sql_sum (credit_rows.map Tx.amount), sql_sum (credit_rows.map Tx.reward) with
     | some a, some r => some (a + r)
     | _, _ => none)
  let debit_rows := db.txs.filter
    (fun t => decide (t.address = address) && decide (t.block_height ≤ max_block_height))
  let debit := py_or_zero
    (match sql_sum (debit_rows.map Tx.amount), sql_sum (debit_rows.map Tx.fee) with
     | some a, some f => some (a + f)
     | _, _ => none)
  credit - debit

/-- `ApiHandler.api_getbalance` (lines 551-576): clamps `minconf` below 1
to 1, accumulates `_get_balance` over the address list with `+=`, and
divides by 1e8 when the node is not in legacy-db mode. -/
def api_getbalance (db : DbHandler) (addresses : List String) (minconf : Int)
    (legacy_db : Bool) : ℚ :=
  let minconf := if minconf < 1 then 1 else minconf
  let balance := addresses.foldl (fun acc address => acc + _get_balance db address minconf) 0
  if legacy_db then balance else balance / 100000000

/-- `ApiHandler._get_received` (lines 578-601): only the credit term,
`SUM(amount)` over rows with `recipient = address` and
`block_height <= block_height_max() - minconf`. -/
def _get_received (db : DbHandler) (address : String) (minconf : Int) : ℚ :=
  let max_block_height := db.max_height - minconf
  let credit_rows := db.txs.filter
    (fun t => decide (t.recipient = address) && decide (t.block_height ≤ max_block_height))
  py_or_zero (sql_sum (credit_rows.map Tx.amount))

/-- `ApiHandler.api_getreceived` (lines 603-628): clamp, accumulate
`_get_received` over the list, divide by 1e8 unless legacy. -/
def api_getreceived (db : DbHandler) (addresses : List String) (minconf : Int)
    (legacy_db : Bool) : ℚ :=
  let minconf := if minconf < 1 then 1 else minconf
  let received := addresses.foldl (fun acc address => acc + _get_received db address minconf) 0
  if legacy_db then received else received / 100000000

/-- The spec's balance formula (spec §3 / §8), written from the spec's
words: `sum(amount+reward where recipient=address, height<=maxHeight-minconf)
- sum(amount+fee where sender=address, height<=maxHeight-minconf)`. -/
def spec_balance (db : DbHandler) (address : String) (minconf : Int) : ℚ :=
  ((db.txs.filter (fun t =>
      decide (t.recipient = address) && decide (t.block_height ≤ db.max_height - minconf))).map
    (fun t => t.amount + t.reward)).sum -
  ((db.txs.filter (fun t =>
      decide (t.address = address) && decide (t.block_height ≤ db.max_height - minconf))).map
    (fun t => t.amount + t.fee)).sum

/-- The spec's received formula: only the credit term, with no debit, fee
or reward contribution. -/
def spec_received (db : DbHandler) (address : String) (minconf : Int) : ℚ :=
  ((db.txs.filter (fun t =>
      decide (t.recipient = address) && decide (t.block_height ≤ db.max_height - minconf))).map
    Tx.amount).sum

theorem py_or_zero_some (v : ℚ) : py_or_zero (some v) = v := by
  by_cases h : v = 0 <;> simp [py_or_zero, h]

theorem sql_sum_pair (rows : List Tx) (f g : Tx → ℚ) :
    py_or_zero
      (match sql_sum (rows.map f), sql_sum (rows.map g) with
       | some a, some b => some (a + b)
       | _, _ => none) = (rows.map (fun t => f t + g t)).sum := by
  cases rows with
  | nil => simp [sql_sum, py_or_zero]
  | cons t ts =>
      rw [show sql_sum ((t :: ts).map f) = some ((t :: ts).map f).sum by simp [sql_sum]]
      rw [show sql_sum ((t :: ts).map g) = some ((t :: ts).map g).sum by simp [sql_sum]]
      rw [show (match (some ((t :: ts).map f).sum : Option ℚ),
                      (some ((t :: ts).map g).sum : Option ℚ) with
                | some a, some b => some (a + b)
                | _, _ => none) = some (((t :: ts).map f).sum + ((t :: ts).map g).sum) from rfl]
      rw [py_or_zero_some]
      induction ts with
      | nil => simp
      | cons u us ih => simp at ih ⊢; linarith

theorem sql_sum_single (rows : List Tx) (f : Tx → ℚ) :
    py_or_zero (sql_sum (rows.map f)) = (rows.map f).sum := by
  cases rows with
  | nil => simp [sql_sum, py_or_zero]
  | cons t ts =>
      rw [show sql_sum ((t :: ts).map f) = some ((t :: ts).map f).sum by simp [sql_sum]]
      rw [py_or_zero_some]

theorem foldl_add_eq_sum (l : List String) (f : String → ℚ) (init : ℚ) :
    l.foldl (fun acc a => acc + f a) init = init + (l.map f).sum := by
  induction l generalizing init with
  | nil => simp
  | cons a as ih => simp [ih]; ring

theorem int_clamp_eq_max (m : Int) : (if m < 1 then 1 else m) = max 1 m := by
  rw [max_def]; split <;> split <;> omega

theorem get_balance_eq_spec (db : DbHandler) (address : String) (minconf : Int) :
    _get_balance db address minconf = spec_balance db address minconf := by
  unfold _get_balance spec_balance
  dsimp only
  rw [sql_sum_pair, sql_sum_pair]

/-- C2: for every address list and minconf (clamped below at 1),
`api_getbalance` answers the sum over the addresses of the spec's
balance aggregate — credits `amount+reward` received as recipient minus
debits `amount+fee` sent as sender, over transactions with
`block_height ≤ max_height - minconf` — divided by 1e8 exactly when the
node is not in legacy-db mode. -/
theorem api_getbalance_matches_spec (db : DbHandler) (addresses : List String)
    (minconf : Int) (legacy_db : Bool) :
    api_getbalance db addresses minconf legacy_db =
      (if legacy_db then
        (addresses.map (fun a => spec_balance db a (max 1 minconf))).sum
       else
        (addresses.map (fun a => spec_balance db a (max 1 minconf))).sum / 100000000) := by
  unfold api_getbalance
  dsimp only
  rw [foldl_add_eq_sum, int_clamp_eq_max]
  simp only [get_balance_eq_spec, zero_add]

/-- C7: for every address list and minconf (clamped below at 1),
`api_getreceived` answers only the credit term — `sum(amount)` over
transactions received as recipient with
`block_height ≤ max_height - minconf` — with no debit, fee or reward
term, divided by 1e8 exactly when the node is not in legacy-db mode. -/
theorem api_getreceived_matches_spec (db : DbHandler) (addresses : List String)
    (minconf : Int) (legacy_db : Bool) :
    api_getreceived db addresses minconf legacy_db =
      (if legacy_db then
        (addresses.map (fun a => spec_received db a (max 1 minconf))).sum
       else
        (addresses.map (fun a => spec_received db a (max 1 minconf))).sum / 100000000) := by
  unfold api_getreceived
  dsimp only
  rw [foldl_add_eq_sum, int_clamp_eq_max]
  have h : ∀ a m, _get_received db a m = spec_received db a m := by
    intro a m
    unfold _get_received spec_received
    rw [sql_sum_single]
  simp only [h, zero_add]

/-- `ApiHandler.api_getblocksince` (lines 328-370): computes
`block_height = max(block_height_max() - 11, since_height)` and returns
every transaction row with `block_height > ?` of that value.  (When the
node is not in legacy-db mode each row is additionally re-encoded
through `Transaction.from_v2(...).to_tuple()`, a purely representational
per-row conversion — spec §4.3 — that does not change which transactions
are returned, so it is omitted here.) -/
def api_getblocksince (db : DbHandler) (since_height : Int) : List Tx :=
  let block_height := max (db.max_height - 11) since_height
  db.txs.filter (fun t => decide (block_height < t.block_height))

/-- A transaction row at a given height with fixed filler fields, used
for concrete inputs. -/
def tx_at (h : Int) : Tx :=
  { block_height := h, timestamp := 0, address := "sender", recipient := "rcpt",
    amount := 1, signature := "sig", pubkey := "pub", block_hash := "hash",
    fee := 0, reward := 0, operation := "", openfield := "data" }

/-- A concrete ledger for the C3 counterexample: maximum height 20, with
transactions inside the last 10 blocks (heights 15 and 20). -/
def db_c3 : DbHandler :=
  { txs := [tx_at 15, tx_at 20], diffs := [], max_height := 20 }

/-- C3 counterexample: with `since_height` equal to the current maximum
height (20), `api_getblocksince` returns nothing at all, although the
ledger holds transactions within the most recent 10 blocks — the
`max(max_height - 11, since_height)` lower bound caps the lookback, it
never guarantees a minimum of 10 blocks. -/
theorem api_getblocksince_caught_up_returns_nothing :
    api_getblocksince db_c3 20 = [] ∧
    db_c3.max_height = 20 ∧
    tx_at 20 ∈ db_c3.txs ∧
    db_c3.max_height - 10 ≤ (tx_at 20).block_height ∧
    (tx_at 20).block_height ≤ db_c3.max_height := by
  refine ⟨?_, rfl, ?_, ?_, ?_⟩ <;> decide

/-- C3 (amended): for every `since_height`, `api_getblocksince` returns
exactly the transactions with `block_height` strictly greater than
`max(current_max_height - 11, since_height)`.  The `max` caps the
result at the ~11 most recent blocks when the caller is far behind; it
does not guarantee any minimum, and when `since_height` equals the
current maximum height only transactions above that height (none, in a
well-formed ledger) are returned. -/
theorem api_getblocksince_filter (db : DbHandler) (since_height : Int) (t : Tx) :
    t ∈ api_getblocksince db since_height ↔
      t ∈ db.txs ∧ max (db.max_height - 11) since_height < t.block_height := by
  simp [api_getblocksince, List.mem_filter]

/-- SQL `LIKE` matching over characters, as SQLite evaluates the bound
`openfield like ?` parameter: `%` matches any (possibly empty) character
sequence, `_` matches exactly one character, anything else matches
itself.  Structural on the pattern: `%` tries every suffix of the
target.  (Matching is modelled case-sensitively, SQLite's behaviour
under `PRAGMA case_sensitive_like`; the default ASCII case folding would
only widen the match set further.) -/
def likeChars : List Char → List Char → Bool
  | [], s => s.isEmpty
  | p :: ps, s =>
      if p = '%' then s.tails.any (fun s2 => likeChars ps s2)
      else if p = '_' then
        match s with
        | [] => false
        | _ :: s2 => likeChars ps s2
      else
        match s with
        | [] => false
        | c :: s2 => (p == c) && likeChars ps s2

/-- SQL `LIKE` on strings. -/
def sqlLike (pattern target : String) : Bool :=
  likeChars pattern.data target.data

/-- One element of the `api_getblockswhereoflike` response list: a
transaction row, or the final single-element list holding the resolved
upper bound height (`info.append([block_height])`). -/
inductive WhereOfLikeEntry where
  | tx (t : Tx)
  | bound (h : Int)
  deriving DecidableEq

/-- `ApiHandler.api_getblockswhereoflike` (lines 372-416): appends a
single `%` to the caller's string and binds it as the `like` parameter
(never concatenated into the query text), bounds the scan to
`(since_height, min(block_height_max(), since_height+1440)]`, and
appends `[block_height]` as the final response element.  (The v2
re-encoding, purely representational, is omitted as in
`api_getblocksince`.) -/
def api_getblockswhereoflike (db : DbHandler) (since_height : Int)
    (of_like : String) : List WhereOfLikeEntry :=
  let where_openfield_like := of_like ++ "%"
  let block_height := min db.max_height (since_height + 1440)
  let info := db.txs.filter (fun t =>
    decide (since_height < t.block_height) && decide (t.block_height ≤ block_height) &&
    sqlLike where_openfield_like t.openfield)
  (info.map WhereOfLikeEntry.tx) ++ [WhereOfLikeEntry.bound block_height]

/-- A concrete ledger for the C6 counterexample: one transaction at
height 5 whose `openfield` is `"data"`, maximum height 10. -/
def db_c6 : DbHandler :=
  { txs := [tx_at 5], diffs := [], max_height := 10 }

/-- C6 counterexample: a caller-supplied "prefix" of `"%"` is a LIKE
wildcard, so the bound pattern becomes `%%` and matches every openfield:
the row with openfield `"data"` is returned although `"data"` does not
start with the literal string `"%"`.  The endpoint filters by LIKE
pattern match, not by literal string prefix. -/
theorem api_getblockswhereoflike_wildcard_leak :
    api_getblockswhereoflike db_c6 0 "%" =
      [WhereOfLikeEntry.tx (tx_at 5), WhereOfLikeEntry.bound 10] ∧
    ("%".data.isPrefixOf (tx_at 5).openfield.data) = false := by
  constructor <;> decide

theorem likeChars_percent_matches_all (s : List Char) :
    likeChars ['%'] s = true := by
  simp [likeChars]

theorem likeChars_wildcard_free_pattern (p : List Char)
    (hp : ∀ c ∈ p, c ≠ '%' ∧ c ≠ '_') (s : List Char) :
    likeChars (p ++ ['%']) s = p.isPrefixOf s := by
  induction p generalizing s with
  | nil => simp [likeChars_percent_matches_all, List.isPrefixOf]
  | cons c cs ih =>
      have hc := hp c (by simp)
      cases s with
      | nil =>
          simp [likeChars, hc.1, hc.2, List.isPrefixOf]
      | cons d ds =>
          have ih2 := ih (fun x hx => hp x (by simp [hx])) ds
          simp [likeChars, hc.1, hc.2, List.isPrefixOf, ih2]

/-- C6 (amended): for every `since_height` and caller-supplied string,
the response holds exactly the transactions with
`since_height < block_height ≤ min(current_max_height, since_height+1440)`
whose `openfield` matches the SQL LIKE pattern `string ++ "%"` (the
string is bound as a query parameter with one trailing wildcard
appended, never concatenated into the query text), and the resolved
upper bound height is the final element of the response.  When the
caller's string contains no LIKE wildcard (`%`/`_`) characters, the
LIKE match coincides with "openfield starts with the string", which is
the case the original claim describes. -/
theorem api_getblockswhereoflike_amended (db : DbHandler) (since_height : Int)
    (of_like : String) :
    (∀ t : Tx, WhereOfLikeEntry.tx t ∈ api_getblockswhereoflike db since_height of_like ↔
      (t ∈ db.txs ∧ since_height < t.block_height ∧
       t.block_height ≤ min db.max_height (since_height + 1440) ∧
       sqlLike (of_like ++ "%") t.openfield = true)) ∧
    (api_getblockswhereoflike db since_height of_like).getLast? =
      some (WhereOfLikeEntry.bound (min db.max_height (since_height + 1440))) ∧
    ((∀ c ∈ of_like.data, c ≠ '%' ∧ c ≠ '_') →
      ∀ s : String, sqlLike (of_like ++ "%") s = of_like.data.isPrefixOf s.data) := by
  refine ⟨fun t => ?_, ?_, fun hp s => ?_⟩
  · simp only [api_getblockswhereoflike, List.mem_append, List.mem_map, List.mem_filter]
    constructor
    · rintro (⟨a, ⟨ha, hcond⟩, heq⟩ | hbad)
      · cases heq
        simp only [Bool.and_eq_true, decide_eq_true_eq] at hcond
        exact ⟨ha, hcond.1.1, hcond.1.2, hcond.2⟩
      · simp at hbad
    · rintro ⟨ha, h1, h2, h3⟩
      refine Or.inl ⟨t, ⟨ha, ?_⟩, rfl⟩
      simp only [Bool.and_eq_true, decide_eq_true_eq]
      exact ⟨⟨h1, h2⟩, h3⟩
  · simp [api_getblockswhereoflike]
  · have hdata : (of_like ++ "%").data = of_like.data ++ ['%'] := by
      simp [String.data_append]
    rw [sqlLike, hdata, likeChars_wildcard_free_pattern of_like.data hp s.data]

/-- A JSON-ish dict value as produced by `Transaction.to_dict`: string,
integer or (rational) number. -/
inductive JVal where
  | s (v : String)
  | i (v : Int)
  | q (v : ℚ)
  deriving DecidableEq

/-- A Python dict with string keys, as an insertion-ordered association
list (Python dicts preserve insertion order). -/
abbrev PyDict := List (String × JVal)

/-- `d[k]` (read). -/
def dget (d : PyDict) (k : String) : Option JVal :=
  (d.find? (fun kv => kv.1 == k)).map Prod.snd

/-- `del d[k]`: removes the key, preserving the order of the rest. -/
def ddel (d : PyDict) (k : String) : PyDict :=
  d.filter (fun kv => kv.1 != k)

/-- `d[k] = v`: updates in place when the key exists, otherwise appends
at the end (Python insertion-order semantics). -/
def dset (d : PyDict) (k : String) (v : JVal) : PyDict :=
  if d.any (fun kv => kv.1 == k) then
    d.map (fun kv => if kv.1 == k then (k, v) else kv)
  else d ++ [(k, v)]

/-- `'{:.8f}'`-style zero padding of the fractional part. -/
def pad8 (n : Nat) : String :=
  String.mk (List.replicate (8 - (toString n).length) '0') ++ toString n

/-- A rational amount rendered as the legacy fixed-point 8-decimal
string, e.g. `0 ↦ "0.00000000"`, `5 ↦ "5.00000000"`.  `units` is the
amount in 1e-8 units (ledger amounts are exact multiples of 1e-8, so
the integer division is exact). -/
def legacyAmount (v : ℚ) : String :=
  let units : Int := v.num * 100000000 / (v.den : Int)
  let sign := if units < 0 then "-" else ""
  sign ++ toString (units.natAbs / 100000000) ++ "." ++ pad8 (units.natAbs % 100000000)

/-- Modelled from the spec:
`Transaction.from_legacy(row).to_dict(legacy=True, decode_pubkey=True)`
belongs to the external `bismuthcore.transaction` module, which is not
in the repository snapshot.  Spec §3 gives the logical record — fields
`block_height, timestamp, sender_address, recipient_address, amount,
signature, pubkey, block_hash, fee, reward, operation, openfield` —
with legacy encoding carrying "amounts as fixed-point decimal strings";
the pubkey is kept as the (decoded) stored field. -/
def txToDict (t : Tx) : PyDict :=
  [("block_height", JVal.i t.block_height),
   ("timestamp", JVal.q t.timestamp),
   ("address", JVal.s t.address),
   ("recipient", JVal.s t.recipient),
   ("amount", JVal.s (legacyAmount t.amount)),
   ("signature", JVal.s t.signature),
   ("pubkey", JVal.s t.pubkey),
   ("block_hash", JVal.s t.block_hash),
   ("fee", JVal.s (legacyAmount t.fee)),
   ("reward", JVal.s (legacyAmount t.reward)),
   ("operation", JVal.s t.operation),
   ("openfield", JVal.s t.openfield)]

/-- One value of the height-keyed blocks dict built by
`blocktojsondiffs`: the block's mining transaction dict and its list of
normal transaction dicts. -/
structure BlockOut where
  mining_tx : PyDict
  transactions : List PyDict
  deriving DecidableEq

/-- `blocks_dict[height] = ...` on the height-keyed outer dict. -/
def bset (d : List (Int × BlockOut)) (h : Int) (b : BlockOut) : List (Int × BlockOut) :=
  if d.any (fun kv => kv.1 == h) then
    d.map (fun kv => if kv.1 == h then (h, b) else kv)
  else d ++ [(h, b)]

/-- The loop state of `ApiHandler.blocktojsondiffs`: the difficulty-row
index `i`, the accumulated `blocks_dict`, the current group's
`normal_transactions`, and `old` (the previous row's height, `None`
before the first row). -/
structure GroupState where
  i : Nat
  blocks : List (Int × BlockOut)
  normal : List PyDict
  old : Option Int

/-- One iteration of the `for transaction in list_of_txs` loop of
`ApiHandler.blocktojsondiffs` (lines 79-109).  `height` is the value of
`transaction_formatted["block_height"]`, read before that key is
deleted.  On a height change, `normal_transactions` is cleared
(`block_dict.clear()` needs no counterpart: both keys of `block_dict`
are reassigned immediately before every snapshot, so the snapshot is
built inline).  A `reward == "0.00000000"` row is stripped of
`block_hash`/`reward` and collected; any other row is stripped of
`address`/`amount`, augmented with `list_of_diffs[i][0]` (each `misc`
row is the 1-tuple of its difficulty; an out-of-range index would raise
`IndexError` in Python, modelled by the harmless default 0, and no claim
input reaches it), and snapshotted into `blocks_dict[height]`. -/
def groupStep (list_of_diffs : List ℚ) (st : GroupState) (transaction : Tx) : GroupState :=
  let transaction_formatted := txToDict transaction
  let height := transaction.block_height
  let tf := ddel transaction_formatted "block_height"
  let st1 := if st.old ≠ some height then { st with normal := [] } else st
  if dget tf "reward" = some (JVal.s "0.00000000") then
    { st1 with
      normal := st1.normal ++ [ddel (ddel tf "block_hash") "reward"],
      old := some height }
  else
    let mining_tx := dset (ddel (ddel tf "address") "amount") "difficulty"
      (JVal.q ((list_of_diffs.drop st1.i).headD 0))
    { st1 with
      blocks := bset st1.blocks height ⟨mining_tx, st1.normal⟩,
      i := st1.i + 1,
      old := some height }

/-- `ApiHandler.blocktojsondiffs` (lines 70-111): folds the row list
through `groupStep` from the empty state and returns the accumulated
height-keyed blocks dict. -/
def blocktojsondiffs (list_of_txs : List Tx) (list_of_diffs : List ℚ) :
    List (Int × BlockOut) :=
  (list_of_txs.foldl (groupStep list_of_diffs) ⟨0, [], [], none⟩).blocks

/-- C5 input row 1: a normal transaction (reward 0) at height 1. -/
def c5_row1 : Tx :=
  { block_height := 1, timestamp := 11, address := "alice", recipient := "bob",
    amount := 2, signature := "sig1", pubkey := "pub1", block_hash := "hashA",
    fee := 1, reward := 0, operation := "op1", openfield := "of1" }

/-- C5 input row 2: a second normal transaction at height 1. -/
def c5_row2 : Tx :=
  { block_height := 1, timestamp := 12, address := "carol", recipient := "dave",
    amount := 3, signature := "sig2", pubkey := "pub2", block_hash := "hashA",
    fee := 1, reward := 0, operation := "op2", openfield := "of2" }

/-- C5 input row 3: the mining (reward 5) transaction of height 1. -/
def c5_row3 : Tx :=
  { block_height := 1, timestamp := 13, address := "", recipient := "miner1",
    amount := 0, signature := "sig3", pubkey := "pub3", block_hash := "hashA",
    fee := 0, reward := 5, operation := "op3", openfield := "of3" }

/-- C5 input row 4: the mining (reward 3) transaction of height 2,
with no normal transactions in its block. -/
def c5_row4 : Tx :=
  { block_height := 2, timestamp := 14, address := "", recipient := "miner2",
    amount := 0, signature := "sig4", pubkey := "pub4", block_hash := "hashB",
    fee := 0, reward := 3, operation := "op4", openfield := "of4" }

/-- C5: on the row sequence `[(h=1,reward=0), (h=1,reward=0),
(h=1,reward=5), (h=2,reward=3)]` with difficulties `[100, 101]`, the
grouping adapter returns `{1: {mining_tx: row3, transactions:
[row1, row2]}, 2: {mining_tx: row4, transactions: []}}`, where each
mining transaction dict has lost `block_height`, `address` and `amount`
and gained its block's `difficulty`, and each normal transaction dict
has lost `block_height`, `block_hash` and `reward`. -/
theorem blocktojsondiffs_groups_example :
    blocktojsondiffs [c5_row1, c5_row2, c5_row3, c5_row4] [100, 101] =
      [(1,
        { mining_tx :=
            [("timestamp", JVal.q 13), ("recipient", JVal.s "miner1"),
             ("signature", JVal.s "sig3"), ("pubkey", JVal.s "pub3"),
             ("block_hash", JVal.s "hashA"), ("fee", JVal.s "0.00000000"),
             ("reward", JVal.s "5.00000000"), ("operation", JVal.s "op3"),
             ("openfield", JVal.s "of3"), ("difficulty", JVal.q 100)],
          transactions :=
            [[("timestamp", JVal.q 11), ("address", JVal.s "alice"),
              ("recipient", JVal.s "bob"), ("amount", JVal.s "2.00000000"),
              ("signature", JVal.s "sig1"), ("pubkey", JVal.s "pub1"),
              ("fee", JVal.s "1.00000000"), ("operation", JVal.s "op1"),
              ("openfield", JVal.s "of1")],
             [("timestamp", JVal.q 12), ("address", JVal.s "carol"),
              ("recipient", JVal.s "dave"), ("amount", JVal.s "3.00000000"),
              ("signature", JVal.s "sig2"), ("pubkey", JVal.s "pub2"),
              ("fee", JVal.s "1.00000000"), ("operation", JVal.s "op2"),
              ("openfield", JVal.s "of2")]] }),
       (2,
        { mining_tx :=
            [("timestamp", JVal.q 14), ("recipient", JVal.s "miner2"),
             ("signature", JVal.s "sig4"), ("pubkey", JVal.s "pub4"),
             ("block_hash", JVal.s "hashB"), ("fee", JVal.s "0.00000000"),
             ("reward", JVal.s "3.00000000"), ("operation", JVal.s "op4"),
             ("openfield", JVal.s "of4"), ("difficulty", JVal.q 101)],
          transactions := [] })] := by
  decide

theorem dget_reward_of_txToDict (t : Tx) :
    dget (ddel (txToDict t) "block_height") "reward" =
      some (JVal.s (legacyAmount t.reward)) := rfl

theorem bset_keys_sub (d : List (Int × BlockOut)) (h k : Int) (b : BlockOut)
    (hk : k ∈ (bset d h b).map Prod.fst) : k ∈ d.map Prod.fst ∨ k = h := by
  unfold bset at hk
  split at hk
  · rcases List.mem_map.mp hk with ⟨kv, hkv, rfl⟩
    rcases List.mem_map.mp hkv with ⟨kv0, hkv0, rfl⟩
    by_cases hc : kv0.1 == h
    · rw [if_pos hc]
      right; rfl
    · rw [if_neg hc]
      exact Or.inl (List.mem_map.mpr ⟨kv0, hkv0, rfl⟩)
  · rcases List.mem_map.mp hk with ⟨kv, hkv, rfl⟩
    rcases List.mem_append.mp hkv with h1 | h2
    · exact Or.inl (List.mem_map.mpr ⟨kv, h1, rfl⟩)
    · right
      have : kv = (h, b) := by simpa using h2
      rw [this]

theorem blocks_of_height_change (st : GroupState) (c : Prop) [Decidable c] :
    (if c then { st with normal := [] } else st).blocks = st.blocks := by
  split <;> rfl

theorem groupStep_keys_sub (diffs : List ℚ) (st : GroupState) (row : Tx) (k : Int)
    (hk : k ∈ ((groupStep diffs st row).blocks.map Prod.fst)) :
    k ∈ st.blocks.map Prod.fst ∨
      (k = row.block_height ∧ legacyAmount row.reward ≠ "0.00000000") := by
  unfold groupStep at hk
  dsimp only at hk
  rw [dget_reward_of_txToDict] at hk
  by_cases hr : legacyAmount row.reward = "0.00000000"
  · rw [if_pos (by rw [hr])] at hk
    dsimp only at hk
    rw [blocks_of_height_change] at hk
    exact Or.inl hk
  · rw [if_neg (by simpa using hr)] at hk
    dsimp only at hk
    rw [blocks_of_height_change] at hk
    rcases bset_keys_sub _ _ _ _ hk with h1 | h2
    · exact Or.inl h1
    · exact Or.inr ⟨h2, hr⟩

theorem foldl_groupStep_keys (diffs : List ℚ) :
    ∀ (txs : List Tx) (st : GroupState) (k : Int),
      k ∈ ((txs.foldl (groupStep diffs) st).blocks.map Prod.fst) →
      k ∈ st.blocks.map Prod.fst ∨
        ∃ t, t ∈ txs ∧ t.block_height = k ∧ legacyAmount t.reward ≠ "0.00000000" := by
  intro txs
  induction txs with
  | nil => exact fun st k hk => Or.inl hk
  | cons t ts ih =>
      intro st k hk
      rcases ih (groupStep diffs st t) k hk with h1 | ⟨u, hu, hh, hr⟩
      · rcases groupStep_keys_sub diffs st t k h1 with h2 | ⟨hh, hr⟩
        · exact Or.inl h2
        · exact Or.inr ⟨t, by simp, hh.symm, hr⟩
      · exact Or.inr ⟨u, by simp [hu], hh, hr⟩

/-- C10: the output dict of the grouping adapter has an entry for a
block height only if the input holds a reward-bearing row (legacy
reward string differing from `"0.00000000"`) at that height; a group of
only-normal rows — such as a trailing group whose mining row is absent
— is silently dropped (second conjunct: a single normal row yields an
empty dict), and a normal row appearing after its group's reward row is
not part of that block's transaction list (third conjunct: the snapshot
taken at the reward row, with its empty transaction list, is never
updated by the later normal row). -/
theorem blocktojsondiffs_requires_reward_row :
    (∀ (txs : List Tx) (diffs : List ℚ) (k : Int),
      List.Pairwise (fun a b => a.block_height ≤ b.block_height) txs →
      k ∈ ((blocktojsondiffs txs diffs).map Prod.fst) →
      ∃ t, t ∈ txs ∧ t.block_height = k ∧ legacyAmount t.reward ≠ "0.00000000") ∧
    blocktojsondiffs [c5_row1] [100] = [] ∧
    blocktojsondiffs [c5_row3, c5_row1] [100] =
      [(1,
        { mining_tx :=
            [("timestamp", JVal.q 13), ("recipient", JVal.s "miner1"),
             ("signature", JVal.s "sig3"), ("pubkey", JVal.s "pub3"),
             ("block_hash", JVal.s "hashA"), ("fee", JVal.s "0.00000000"),
             ("reward", JVal.s "5.00000000"), ("operation", JVal.s "op3"),
             ("openfield", JVal.s "of3"), ("difficulty", JVal.q 100)],
          transactions := [] })] := by
  refine ⟨fun txs diffs k _ hk => ?_, by decide, by decide⟩
  rcases foldl_groupStep_keys diffs txs ⟨0, [], [], none⟩ k hk with h | h
  · simp at h
  · exact h

/-- Concrete instance of C10's general conjunct: on the single-row
input holding only height 1's mining row, the key 1 of the output is
traced back to that reward-bearing row. -/
theorem blocktojsondiffs_requires_reward_row_witness :
    ∃ t, t ∈ [c5_row3] ∧ t.block_height = 1 ∧ legacyAmount t.reward ≠ "0.00000000" :=
  blocktojsondiffs_requires_reward_row.1 [c5_row3] [100] 1 (by decide) (by decide)

/-- Modelled from the spec: `DbHandler.get_address_range` lives in the
storage collaborator (`libs/dbhandler.py`), which is not in the
repository snapshot.  Spec §4.2: "Address range: returns, for one
address, up to 500 transactions starting at a given height" — here, up
to `limit` of the address's transactions from `starting_block` on (the
caller passes the already-capped limit). -/
def get_address_range (db : DbHandler) (address : String) (starting_block : Int)
    (limit : Int) : List Tx :=
  (db.txs.filter (fun t =>
    (decide (t.address = address) || decide (t.recipient = address)) &&
    decide (starting_block ≤ t.block_height))).take limit.toNat

/-- `ApiHandler.api_getaddressrange` (lines 268-290): clamps the
caller's limit to 500 and queries `get_address_range`.  (The
`to_blocks_dict()` reshaping of the returned rows is representational
and does not change the number of returned transactions; the cap claim
is about the row list.) -/
def api_getaddressrange (db : DbHandler) (address : String) (starting_block : Int)
    (limit : Int) : List Tx :=
  let limit := if limit > 500 then 500 else limit
  get_address_range db address starting_block limit

/-- `ApiHandler.api_getblockrange` (lines 292-326): clamps the caller's
limit to 50, fetches the transaction and difficulty rows with
`start_block <= block_height < start_block + limit`, and groups them
through `blocktojsondiffs` (the final `json.dumps` serialization is
omitted). -/
def api_getblockrange (db : DbHandler) (start_block : Int) (limit : Int) :
    List (Int × BlockOut) :=
  let limit := if limit > 50 then 50 else limit
  let raw_txs := db.txs.filter (fun t =>
    decide (start_block ≤ t.block_height) && decide (t.block_height < start_block + limit))
  let raw_diffs := (db.diffs.filter (fun d =>
    decide (start_block ≤ d.1) && decide (d.1 < start_block + limit))).map Prod.snd
  blocktojsondiffs raw_txs raw_diffs

/-- Stable insertion of a row into a height-ascending list, modelling
SQL `ORDER BY block_height ASC`. -/
def insertByHeight (t : Tx) : List Tx → List Tx
  | [] => [t]
  | u :: us =>
      if u.block_height ≤ t.block_height then u :: insertByHeight t us
      else t :: u :: us

/-- Height-ascending ordering of a row list (`ORDER BY block_height ASC`). -/
def orderByHeightAsc : List Tx → List Tx
  | [] => []
  | t :: ts => insertByHeight t (orderByHeightAsc ts)

/-- The `api_getaddresssince` response: `{'last': block_height,
'minconf': min_confirmations, 'transactions': info}`. -/
structure AddressSinceResponse where
  last : Int
  minconf : Int
  transactions : List Tx
  deriving DecidableEq

/-- `ApiHandler.api_getaddresssince` (lines 476-515): transactions with
`since_height < block_height <= min(block_height_max() - minconf,
since_height + 720)` where the address is sender or recipient, ordered
by ascending height, with the resolved upper bound and the echoed
minconf.  (The v2 re-encoding is omitted as in `api_getblocksince`.) -/
def api_getaddresssince (db : DbHandler) (since_height : Int) (min_confirmations : Int)
    (address : String) : AddressSinceResponse :=
  let block_height := min (db.max_height - min_confirmations) (since_height + 720)
  let info := orderByHeightAsc (db.txs.filter (fun t =>
    decide (since_height < t.block_height) && decide (t.block_height ≤ block_height) &&
    (decide (t.address = address) || decide (t.recipient = address))))
  { last := block_height, minconf := min_confirmations, transactions := info }

theorem mem_insertByHeight (a t : Tx) (l : List Tx) :
    a ∈ insertByHeight t l ↔ a = t ∨ a ∈ l := by
  induction l with
  | nil => simp [insertByHeight]
  | cons u us ih =>
      by_cases hc : u.block_height ≤ t.block_height
      · simp [insertByHeight, hc, ih]
        tauto
      · simp [insertByHeight, hc]

theorem mem_orderByHeightAsc (a : Tx) (l : List Tx) :
    a ∈ orderByHeightAsc l ↔ a ∈ l := by
  induction l with
  | nil => simp [orderByHeightAsc]
  | cons t ts ih => simp [orderByHeightAsc, mem_insertByHeight, ih]

/-- C8: the range caps hold for every caller-supplied limit or window:
the address-range query returns at most 500 rows; every block height in
the block-range response lies in a window of at most 50 consecutive
heights at `start_block`; and every transaction in the address-since
response has height in
`(since_height, min(max_height - minconf, since_height + 720)]`, a span
of at most 720 blocks above `since_height`. -/
theorem range_caps_enforced :
    (∀ (db : DbHandler) (address : String) (starting_block limit : Int),
      (api_getaddressrange db address starting_block limit).length ≤ 500) ∧
    (∀ (db : DbHandler) (start_block limit k : Int),
      k ∈ ((api_getblockrange db start_block limit).map Prod.fst) →
      start_block ≤ k ∧ k < start_block + 50) ∧
    (∀ (db : DbHandler) (since_height min_confirmations : Int) (address : String) (t : Tx),
      t ∈ (api_getaddresssince db since_height min_confirmations address).transactions →
      since_height < t.block_height ∧
      t.block_height ≤ min (db.max_height - min_confirmations) (since_height + 720)) := by
  refine ⟨fun db address starting_block limit => ?_, fun db start_block limit k hk => ?_,
    fun db since_height min_confirmations address t ht => ?_⟩
  · unfold api_getaddressrange get_address_range
    dsimp only
    calc (List.take (if limit > 500 then 500 else limit).toNat _).length
        ≤ (if limit > 500 then 500 else limit).toNat := by
          rw [List.length_take]; exact min_le_left _ _
      _ ≤ 500 := by split <;> omega
  · unfold api_getblockrange at hk
    dsimp only at hk
    rcases foldl_groupStep_keys _ _ ⟨0, [], [], none⟩ k hk with h | ⟨t, ht, hh, _⟩
    · simp at h
    · rw [List.mem_filter] at ht
      have hb := ht.2
      simp only [Bool.and_eq_true, decide_eq_true_eq] at hb
      constructor
      · omega
      · have : t.block_height < start_block + (if limit > 50 then 50 else limit) := hb.2
        split at this <;> omega
  · unfold api_getaddresssince at ht
    dsimp only at ht
    rw [mem_orderByHeightAsc, List.mem_filter] at ht
    have hb := ht.2
    simp only [Bool.and_eq_true, decide_eq_true_eq] at hb
    exact ⟨hb.1.1, hb.1.2⟩

/-- A one-block ledger used to instantiate C8's cap statements. -/
def db_c8 : DbHandler :=
  { txs := [c5_row3], diffs := [(1, 100)], max_height := 5 }

/-- Concrete instance of C8: a request for 10000 address-range entries
returns at most 500; the single block height 1 of a concrete
block-range response lies in the 50-height window; and the concrete
address-since row at height 5 lies in the 720-block window. -/
theorem range_caps_enforced_witness :
    ((api_getaddressrange db_c8 "miner1" 0 10000).length ≤ 500) ∧
    (0 ≤ (1 : Int) ∧ (1 : Int) < 0 + 50) ∧
    ((0 : Int) < (tx_at 5).block_height ∧
      (tx_at 5).block_height ≤ min (db_c6.max_height - 1) (0 + 720)) :=
  ⟨range_caps_enforced.1 db_c8 "miner1" 0 10000,
   range_caps_enforced.2.1 db_c8 0 10 1 (by decide),
   range_caps_enforced.2.2 db_c6 0 1 "sender" (tx_at 5) (by decide)⟩

/-- The effect monad of a handler body: threads the list of SQL texts
issued to the ledger storage collaborator, and short-circuits on a
raised exception (`Except.error`). -/
def ApiM (α : Type) : Type := List String → Except String α × List String

instance : Monad ApiM where
  pure a := fun queries => (Except.ok a, queries)
  bind m f := fun queries =>
    match m queries with
    | (Except.ok a, queries2) => f a queries2
    | (Except.error e, queries2) => (Except.error e, queries2)

/-- `raise ValueError(e)`: aborts the handler, issuing nothing. -/
def raiseError (e : String) : ApiM Unit := fun queries => (Except.error e, queries)

/-- `db_handler._execute_param(db_handler.h, sql, params)`: records the
query text handed to the storage collaborator. -/
def execute_param (sql : String) : ApiM Unit := fun queries => (Except.ok (), queries ++ [sql])

/-- Run a handler body from a fresh call: no queries issued yet. -/
def runApi {α : Type} (m : ApiM α) : Except String α × List String := m []

/-- `ApiHandler.api_getblocksafterwhere` (lines 418-474): raises
`ValueError("Unsafe, do not use yet")` unconditionally after reading its
two socket parameters and before any storage access.  The dead remainder
of the body (which would concatenate `where_conditions` into the query
text) is kept below the raise, short-circuited exactly as in the source;
its result row set is modelled as the bare height-window filter since
the caller-assembled predicate has no fixed semantics — it is provably
never evaluated. -/
def api_getblocksafterwhere (db : DbHandler) (since_height : Int)
    (where_conditions : String) : ApiM (List Tx) := do
  let _ ← raiseError "Unsafe, do not use yet"
  let where_assembled := where_conditions
  let block_height := min db.max_height (since_height + 720)
  let _ ← execute_param
    ("SELECT * FROM transactions WHERE block_height > ? and block_height <= ? and ( "
      ++ where_assembled ++ ")")
  pure (db.txs.filter (fun t =>
    decide (since_height < t.block_height) && decide (t.block_height ≤ block_height)))

/-- `ApiHandler.api_gettransaction` (lines 693-756): raises
`ValueError("Do not use yet - Rewrite")` as its first statement.  The
dead remainder (modelled by its first query, the prefix lookup by
transaction id, on the `old_sqlite` branch) is short-circuited exactly
as in the source. -/
def api_gettransaction (db : DbHandler) (transaction_id : String) : ApiM (Option Tx) := do
  let _ ← raiseError "Do not use yet - Rewrite"
  let _ ← execute_param "SELECT * FROM transactions WHERE signature like ?1"
  pure (db.txs.find? (fun t => t.signature.startsWith transaction_id))

/-- `ApiHandler.api_gettransactionbysignature` (lines 758-822): raises
`ValueError("Do not use yet - Rewrite")` as its first statement; the
dead remainder (its first query, the exact-signature lookup) is
short-circuited exactly as in the source. -/
def api_gettransactionbysignature (db : DbHandler) (signature : String) : ApiM (Option Tx) := do
  let _ ← raiseError "Do not use yet - Rewrite"
  let _ ← execute_param "SELECT * FROM transactions WHERE signature = ?1"
  pure (db.txs.find? (fun t => t.signature == signature))

/-- C4: for every input — well-formed included — each disabled
operation ends in its explicit `ValueError` with an empty issued-query
list: the error is raised before any query reaches the ledger storage
collaborator, so no caller-influenced query text is ever executed. -/
theorem disabled_endpoints_fail_before_storage :
    (∀ (db : DbHandler) (since_height : Int) (where_conditions : String),
      runApi (api_getblocksafterwhere db since_height where_conditions) =
        (Except.error "Unsafe, do not use yet", [])) ∧
    (∀ (db : DbHandler) (transaction_id : String),
      runApi (api_gettransaction db transaction_id) =
        (Except.error "Do not use yet - Rewrite", [])) ∧
    (∀ (db : DbHandler) (signature : String),
      runApi (api_gettransactionbysignature db signature) =
        (Except.error "Do not use yet - Rewrite", [])) :=
  ⟨fun _ _ _ => rfl, fun _ _ => rfl, fun _ _ => rfl⟩

/-- The `api_getaddressinfo` response dict
`{'known': ..., 'pubkey': ...}`. -/
structure AddressInfo where
  known : Bool
  pubkey : String
  deriving DecidableEq

/-- The two address-metadata lookups of the storage collaborator used
by `api_getaddressinfo`; `Except.error` is the lookup raising. -/
structure AddressStore where
  known_address : String → Except String Bool
  pubkeyget : String → Except String String

/-- `ApiHandler.api_getaddressinfo` (lines 166-194):
`SignerFactory.address_is_valid` (the external address/signature
validator) is a parameter.  On an invalid address the prepared default
`{'known': False, 'pubkey': ''}` is sent with no storage access; on a
valid address the two lookups run inside their own `try`, and a lookup
exception leaves the remaining defaults in the best-effort response.
The second component lists the storage lookups invoked, in order. -/
def api_getaddressinfo (address_is_valid : String → Bool) (db : AddressStore)
    (address : String) : AddressInfo × List String :=
  if !(address_is_valid address) then
    ({ known := false, pubkey := "" }, [])
  else
    match db.known_address address with
    | Except.error _ => ({ known := false, pubkey := "" }, ["known_address"])
    | Except.ok k =>
        match db.pubkeyget address with
        | Except.error _ => ({ known := k, pubkey := "" }, ["known_address", "pubkeyget"])
        | Except.ok pk => ({ known := k, pubkey := pk }, ["known_address", "pubkeyget"])

/-- C9: whenever the address fails the format validation, the response
is exactly `{known: false, pubkey: ""}` and the invoked-lookup list is
empty — neither `known_address` nor `pubkeyget` is called. -/
theorem api_getaddressinfo_invalid_no_storage (address_is_valid : String → Bool)
    (db : AddressStore) (address : String) (h : address_is_valid address = false) :
    api_getaddressinfo address_is_valid db address =
      ({ known := false, pubkey := "" }, ([] : List String)) := by
  simp [api_getaddressinfo, h]

/-- Concrete instance of C9: a validator rejecting everything, a store
that would answer both lookups, and a malformed address. -/
theorem api_getaddressinfo_invalid_no_storage_witness :
    api_getaddressinfo (fun _ => false)
      ⟨fun _ => Except.ok true, fun _ => Except.ok "decoded-pubkey"⟩ "bad address" =
      ({ known := false, pubkey := "" }, ([] : List String)) :=
  api_getaddressinfo_invalid_no_storage (fun _ => false)
    ⟨fun _ => Except.ok true, fun _ => Except.ok "decoded-pubkey"⟩ "bad address" rfl
